import Mathlib

/-!
Shallow embedding of the Tubi Data Catalog generation pipeline
(`generate.py` and the source adapters under `sources/`), together with
proofs of the behavioural claims about it.

Conventions of the embedding:
* Python dicts carrying asset / glossary-term / override records become
  structures with optional fields (`Option`) where the source treats the
  key as optional.
* Timestamps are integers (seconds); `datetime.now(timezone.utc)` becomes
  an explicit `now : Int` parameter.
* Python `dict` lookup tables become association lists (`assocGet`); an
  override record stored in `overrides.json` is modelled as present
  (`some`), matching the truthiness test on a non-empty parsed object.
* Python `needle in haystack` on strings is the substring test
  `needle.data <:+: haystack.data`; `str.lower`, `str.strip`,
  `str.startswith` and `str.endswith` are modelled on the character lists
  (ASCII semantics) so that they compute by kernel reduction.
* Python's `list.sort` is a stable sort by key; any stable sorting
  algorithm realises it, and the embedding uses insertion sort.
-/

set_option maxRecDepth 10000

namespace Catalog

/-- Python substring test `needle in haystack`. -/
def strContains (haystack needle : String) : Bool :=
  decide (needle.data <:+: haystack.data)

/-- Python `str.lower()` (ASCII case folding), on the character list so that
it computes by kernel reduction. -/
def strLower (s : String) : String :=
  String.mk (s.data.map Char.toLower)

/-- Python `str.strip()`: drop whitespace from both ends. -/
def strTrim (s : String) : String :=
  String.mk (((s.data.dropWhile Char.isWhitespace).reverse.dropWhile
    Char.isWhitespace).reverse)

/-- Python `str.startswith(p)`. -/
def strStartsWith (s p : String) : Bool :=
  p.data.isPrefixOf s.data

/-- Python `str.endswith(p)`. -/
def strEndsWith (s p : String) : Bool :=
  p.data.isSuffixOf s.data

/-- Python's lexicographic string comparison `s <= t`, by code point. -/
def charListLe : List Char → List Char → Bool
  | [], _ => true
  | _ :: _, [] => false
  | c :: cs, d :: ds =>
    if c.toNat < d.toNat then true
    else if d.toNat < c.toNat then false
    else charListLe cs ds

/-- Python `dict.get(k)` over an association list (first binding wins). -/
def assocGet {β : Type} (m : List (String × β)) (k : String) : Option β :=
  match m with
  | [] => none
  | (k', v) :: rest => if k' = k then some v else assocGet rest k

/-- `STALE_DAYS = 30` from `generate.py`. -/
def STALE_DAYS : Int := 30

/-- One normalized dashboard record (the common asset dict shape built by the
adapters and mutated by the enrichment engine).  Fields written only by
enrichment carry neutral defaults so that a pre-enrichment asset is just the
adapter-produced part. -/
structure Asset where
  tool : String
  name : String
  description : Option String := none
  owner : Option String := none
  updatedAt : Option Int := none
  url : String := ""
  project : Option String := none
  published : Option Bool := none
  status : String := "unknown"
  domains : List String := []
  tags : List String := []
  relatedTerms : List String := []
  quality : Bool := true
  featured : Bool := false
  ownerDisplay : Option String := none
  podSlugs : List String := []
  overrideMetaUpdatedBy : Option String := none
  overrideMetaUpdatedAt : Option String := none
  overrideMetaNote : Option String := none
deriving Repr, DecidableEq

/-- `_PROJECT_TO_DOMAIN` from `generate.py`; `none` is the Python `None`
(personal/sandbox folder, fall through to keyword matching). -/
def PROJECT_TO_DOMAIN : List (String × Option String) := [
  ("2. DEVELOPMENT", some "Infra/Tools"),
  ("Accounting", some "Finance & BizOps"),
  ("Admin Insights", some "General Tubi"),
  ("Ads_Account Management Tools", some "Ads"),
  ("Ads_Ad Deactiviation Dashboard (S&P)", some "Ads"),
  ("Ads_Ad Monetization Dashboards", some "Ads"),
  ("Ads_AdOps Tools", some "Ads"),
  ("Certified KPIs", some "General Tubi"),
  ("Complex Dashboard Templates", some "Infra/Tools"),
  ("Content Partnerships", some "Content"),
  ("Core Dashboards", some "General Tubi"),
  ("Core Experiences", some "Core Experiences"),
  ("Dashboard Templates & Style Guide", some "Infra/Tools"),
  ("Dev_Ads", some "Ads"),
  ("Dev_Ads_Account Management Tools", some "Ads"),
  ("Dev_Ads_Ad Deactiviation Dashboard (S&P)", some "Ads"),
  ("Dev_Ads_Ad Monetization Dashboards", some "Ads"),
  ("Dev_Ads_AdOps Tools", some "Ads"),
  ("Dev_Ads_Product Tools", some "Ads"),
  ("Dev_Ads_Sales Ops Tools", some "Ads"),
  ("Dev_Ads_Yield", some "Ads"),
  ("Dev_BizOps", some "Finance & BizOps"),
  ("Dev_Content", some "Content"),
  ("Dev_Content_Analytics", some "Content"),
  ("Dev_DSA", some "General Tubi"),
  ("Dev_DSA Viewer Growth", some "Viewer Growth"),
  ("Dev_DSA_Core_Experience_Retention", some "Core Experiences"),
  ("Dev_Ecosystems_Experiments and Holdouts", some "Experimentation"),
  ("Dev_Ecosystems_Finance", some "Finance & BizOps"),
  ("Dev_Finance & BizOps", some "Finance & BizOps"),
  ("Dev_Growth Analytics_Adhoc_Analysis", some "Viewer Growth"),
  ("Dev_Growth Analytics_Core Dashboards", some "Viewer Growth"),
  ("Dev_Growth Analytics_Retargeting", some "Viewer Growth"),
  ("Dev_Tubi KPIs (Certified)_Distribution Dashboard", some "General Tubi"),
  ("Ecosystems_Finance", some "Finance & BizOps"),
  ("Experimentation", some "Experimentation"),
  ("FP&A", some "Finance & BizOps"),
  ("Month End Close", some "Finance & BizOps"),
  ("PRO Reporting", some "Ads"),
  ("Revenue Accounting", some "Finance & BizOps"),
  ("Rightsline", some "Content"),
  ("Samples", some "Infra/Tools"),
  ("Sandbox", some "Infra/Tools"),
  ("Simple Dashboard Templates", some "Infra/Tools"),
  ("Test Workbooks and Data Sources", some "Infra/Tools"),
  ("default", some "General Tubi"),
  ("Xueling Chen", none),
  ("Yuting Chen", none)]

/-- `_KEYWORD_DOMAIN_RULES` from `generate.py`. -/
def KEYWORD_DOMAIN_RULES : List (List String × String) := [
  (["experiment", "a/b", "holdout", "treatment vs", "ab test", "control group"],
   "Experimentation"),
  (["adops", "ad ops", "ad monetiz", "ad account", "ad deactiv", "ad product",
    "yield", "programmatic", "avod", "ecpm", "fill rate", "impression",
    "advertis", "sales ops", "cpm"],
   "Ads"),
  (["discoai", "disco ai", "recommendation", "personali", "content ranking",
    "ml model", "algorithmic"],
   "DiscoAI"),
  (["fp&a", "month end", "revenue account", "content licensing",
    "rights management", "rightsline", "finance", "accounting",
    "bizops", "biz ops", "budget forecast"],
   "Finance & BizOps"),
  (["content catalog", "content partner", "title catalog", "show catalog",
    "content rights", "content licensing"],
   "Content"),
  (["viewer growth", "user growth", "user acquisition", "user retention",
    "churn", "new user", "signup", "registr",
    "dau", "mau", "wau", "daily active", "monthly active", "weekly active"],
   "Viewer Growth"),
  (["core experience", "playback", "video start", "buffering",
    "video player", "watch session"],
   "Core Experiences"),
  (["data quality", "data pipeline", "data infra", "data engineering",
    "dbt", "airflow", "etl", "infra monitor", "tooling", "admin tool"],
   "Infra/Tools"),
  (["certified kpi", "north star", "executive", "company kpi",
    "tubi kpi", "tubi overview", "company overview"],
   "General Tubi")]

/-- The keyword-matching loop of `_infer_domains` (step 2): every rule any of
whose keywords is a substring of the lowercased name contributes its domain,
de-duplicated preserving first-seen order. -/
def keywordDomains (nameLower : String) : List String :=
  KEYWORD_DOMAIN_RULES.foldl
    (fun domains rule =>
      if rule.1.any (fun kw => strContains nameLower kw) then
        if domains.contains rule.2 then domains else domains ++ [rule.2]
      else domains)
    []

/-- `_infer_domains` from `generate.py`. -/
def inferDomains (a : Asset) : List String :=
  let viaProject : Option String :=
    match a.project with
    | some p =>
      if p = "" then none
      else
        match assocGet PROJECT_TO_DOMAIN p with
        | some (some d) => some d
        | some none => none
        | none => none
    | none => none
  match viaProject with
  | some d => [d]
  | none =>
    let domains := keywordDomains (strLower a.name)
    if domains.isEmpty then ["General Tubi"] else domains

/-- `_BAD_NAME_PREFIXES` from `generate.py`. -/
def BAD_NAME_PREFIXES : List String := ["untitled", "copy of ", "[test]", "[draft]"]

/-- `_BAD_NAME_EXACT` from `generate.py`. -/
def BAD_NAME_EXACT : List String := ["test", "draft", "temp", "untitled", "untitled dashboard"]

/-- `compute_quality` from `generate.py`. -/
def computeQuality (a : Asset) : Bool :=
  let name := strTrim a.name
  if name = "" then false
  else
    let n := strLower name
    if BAD_NAME_EXACT.contains n then false
    else if BAD_NAME_PREFIXES.any (fun p => strStartsWith n p) then false
    else if strStartsWith n "test " || strEndsWith n " test" then false
    else if n = "tmp" || strStartsWith n "tmp " || strEndsWith n " tmp" then false
    else if a.tool = "preset" && !(a.published.getD true) then false
    else true

/-- `compute_status` from `generate.py` (time in seconds; 30 days = 2592000 s). -/
def computeStatus (now : Int) (a : Asset) : String :=
  match a.updatedAt with
  | none => "unknown"
  | some t => if now - t ≤ STALE_DAYS * 86400 then "active" else "stale"

/-- `_POD_SLUG` from `generate.py`. -/
def POD_SLUG : List (String × String) := [
  ("Viewer Growth", "viewer-growth"),
  ("Core Experiences", "core-experiences"),
  ("Ads", "ads"),
  ("Content", "content"),
  ("DiscoAI", "discoai"),
  ("Experimentation", "experimentation"),
  ("Finance & BizOps", "finance-bizops"),
  ("Infra/Tools", "infra-tools")]

/-- `_OWNER_DISPLAY` from `generate.py`. -/
def OWNER_DISPLAY : List (String × String) := [
  ("agutierrez@tubi.tv", "A. Gutierrez"),
  ("akshatshah@tubi.tv", "Akshat Shah"),
  ("aray@tubi.tv", "Ashley Ray"),
  ("bderegt@tubi.tv", "Bryan deRegt"),
  ("bmccue@tubi.tv", "Bryan McCue"),
  ("elau@tubi.tv", "Elvis Lau"),
  ("esthertsui@tubi.tv", "Esther Tsui"),
  ("gbroe@tubi.tv", "Greg Broe"),
  ("jfan@tubi.tv", "J. Fan"),
  ("jvora@tubi.tv", "Jaynil Vora"),
  ("knguyen@tubi.tv", "K. Nguyen"),
  ("stephenkim@tubi.tv", "Stephen Kim"),
  ("tdecampo@tubi.tv", "Tim DeCampo"),
  ("tol.admin.api.broker.service.usera@tableau.com", "Tableau Service"),
  ("vhernandez@tubi.tv", "V. Hernandez"),
  ("wgao@tubi.tv", "Wenting Gao"),
  ("xchen@tubi.tv", "Xueling Chen"),
  ("ychen@tubi.tv", "Yixin Chen"),
  ("ajain@tubi.tv", "Aashi Jain"),
  ("amirina@tubi.tv", "Alex Mirina"),
  ("bpulikkal@tubi.tv", "Binoop Pulikkal"),
  ("cbejjani@tubi.tv", "Christina Bejjani"),
  ("cdileo@tubi.tv", "Christopher DiLeo"),
  ("gcavdar@tubi.tv", "Gozde Cavdar"),
  ("gnguyen@tubi.tv", "GiGi Nguyen"),
  ("hmahoney@tubi.tv", "Hillary Mahoney"),
  ("jdeng@tubi.tv", "Jieyi Deng"),
  ("jsingh@tubi.tv", "Jaskaran Singh"),
  ("lmantena@tubi.tv", "Lakshmi Mantena"),
  ("lwiebolt@tubi.tv", "Luke Wiebolt"),
  ("mdorofiyenko@tubi.tv", "Maxim Dorofiyenko"),
  ("myoung@tubi.tv", "Mariel Young"),
  ("rvaswani@tubi.tv", "Rahul Vaswani"),
  ("slu@tubi.tv", "Sang Lu"),
  ("syin@tubi.tv", "Sunny Yin"),
  ("vlu@tubi.tv", "Vivian Lu"),
  ("ywang@tubi.tv", "Yixin Wang"),
  ("yliu@tubi.tv", "Yonglin Liu")]

/-- `_DSA_POD_MEMBERS` from `generate.py`. -/
def DSA_POD_MEMBERS : List (String × List String) := [
  ("Viewer Growth",
   ["bderegt@tubi.tv", "gnguyen@tubi.tv", "gbroe@tubi.tv",
    "hmahoney@tubi.tv", "slu@tubi.tv",
    "Greg Broe", "GiGi Nguyen", "Hillary Mahoney", "Sang Lu"]),
  ("Infra/Tools",
   ["bderegt@tubi.tv", "lwiebolt@tubi.tv", "Luke Wiebolt"]),
  ("Finance & BizOps",
   ["stephenkim@tubi.tv", "aray@tubi.tv", "bderegt@tubi.tv",
    "Stephen Kim", "Ashley Ray"]),
  ("Experimentation",
   ["wgao@tubi.tv", "aray@tubi.tv", "Wenting Gao", "Ashley Ray"]),
  ("Content",
   ["rvaswani@tubi.tv", "aray@tubi.tv", "cbejjani@tubi.tv",
    "elau@tubi.tv", "lmantena@tubi.tv", "tdecampo@tubi.tv",
    "Rahul Vaswani", "Ashley Ray", "Christina Bejjani",
    "Elvis Lau", "Lakshmi Mantena", "Tim DeCampo"]),
  ("DiscoAI",
   ["ajain@tubi.tv", "amirina@tubi.tv", "jsingh@tubi.tv", "ychen@tubi.tv",
    "Aashi Jain", "Alex Mirina", "Jaskaran Singh", "Yixin Chen"]),
  ("Core Experiences",
   ["cdileo@tubi.tv", "gcavdar@tubi.tv", "jdeng@tubi.tv",
    "myoung@tubi.tv", "syin@tubi.tv", "yliu@tubi.tv",
    "Christopher DiLeo", "Gozde Cavdar", "Jieyi Deng",
    "Mariel Young", "Sunny Yin", "Yonglin Liu"]),
  ("Ads",
   ["akshatshah@tubi.tv", "bpulikkal@tubi.tv", "jvora@tubi.tv",
    "vlu@tubi.tv", "ywang@tubi.tv", "mdorofiyenko@tubi.tv",
    "Akshat Shah", "Binoop Pulikkal", "Jaynil Vora",
    "Vivian Lu", "Yixin Wang", "Maxim Dorofiyenko"])]

/-- `setdefault(identifier, []).append(slug)` on an association list. -/
def assocAppend (m : List (String × List String)) (k v : String) :
    List (String × List String) :=
  if (assocGet m k).isSome then
    m.map (fun p => if p.1 = k then (p.1, p.2 ++ [v]) else p)
  else m ++ [(k, [v])]

/-- `_OWNER_TO_POD_SLUGS`, built by the module-level reverse-index loop. -/
def OWNER_TO_POD_SLUGS : List (String × List String) :=
  DSA_POD_MEMBERS.foldl
    (fun acc pm =>
      pm.2.foldl
        (fun acc ident => assocAppend acc ident ((assocGet POD_SLUG pm.1).getD ""))
        acc)
    []

/-- The owner-display expression of `enrich_assets`: display-name table, else
the raw string when it has no `@`, else the part before `@`. -/
def ownerDisplayOf (owner : String) : Option String :=
  match assocGet OWNER_DISPLAY owner with
  | some d => some d
  | none =>
    if !(strContains owner "@") then
      if owner = "" then none else some owner
    else some (String.mk (owner.data.takeWhile (fun c => c != '@')))

/-- One record of `overrides.json` (parsed shape; provenance defaults to `""`
as in the `ov.get(key, "")` calls). -/
structure Override where
  domains : Option (List String) := none
  pods : Option (List String) := none
  featured : Option Bool := none
  status : Option String := none
  updatedBy : String := ""
  updatedAt : String := ""
  note : String := ""
deriving Repr, DecidableEq

/-- Parsed `metadata.yml` as returned by `load_metadata`. -/
structure Metadata where
  featured : List String := []
  nameToDomains : List (String × List String) := []
  nameToTags : List (String × List String) := []
  nameToPods : List (String × List String) := []
  nameToStatus : List (String × String) := []
deriving Repr, DecidableEq

/-- The override lookup of `enrich_assets`:
`overrides.get(url) or overrides.get(name) or overrides.get(name_lower)`. -/
def lookupOverride (ovs : List (String × Override)) (a : Asset) : Option Override :=
  match assocGet ovs a.url with
  | some ov => some ov
  | none =>
    match assocGet ovs a.name with
    | some ov => some ov
    | none => assocGet ovs (strLower a.name)

/-- The status/visibility override block of `enrich_assets`
(used for both the `metadata.yml` entry and the `overrides.json` entry):
`hidden` forces quality to `False`; `active`/`stale`/`unknown` overwrite the
status; anything else changes nothing. -/
def applyStatusOverride (v : Option String) (q : Bool) (s : String) : Bool × String :=
  match v with
  | some v =>
    if v = "hidden" then (false, s)
    else if v = "active" ∨ v = "stale" ∨ v = "unknown" then (q, v)
    else (q, s)
  | none => (q, s)

/-- The final `featured` value of the `enrich_assets` body: the
metadata.yml featured-substring test, replaced by `bool(ov["featured"])`
when the found override carries a non-`None` `featured`. -/
def enrichedFeatured (md : Metadata) (ovs : List (String × Override)) (a : Asset) : Bool :=
  let featured1 := md.featured.any (fun f => strContains (strLower a.name) f)
  match lookupOverride ovs a with
  | some ov =>
    match ov.featured with
    | some b => b
    | none => featured1
  | none => featured1

/-- The final `domains` value of the `enrich_assets` body: the manual
metadata.yml per-name domains when present and truthy, else `_infer_domains`;
then replaced wholesale by the found override's `domains` when truthy. -/
def enrichedDomains (md : Metadata) (ovs : List (String × Override)) (a : Asset) : List String :=
  let domains1 :=
    match assocGet md.nameToDomains (strLower a.name) with
    | some ds => if ds.isEmpty then inferDomains a else ds
    | none => inferDomains a
  match lookupOverride ovs a with
  | some ov =>
    match ov.domains with
    | some ds => if ds.isEmpty then domains1 else ds
    | none => domains1
  | none => domains1

/-- The final `pod_slugs` value of the `enrich_assets` body: the metadata.yml
per-name teams when present, else the owner-based reverse index (with the
`non-dsa` sentinel for a non-empty unmapped owner); then replaced by the
found override's `pods` when truthy. -/
def enrichedPods (md : Metadata) (ovs : List (String × Override)) (a : Asset) : List String :=
  let owner := a.owner.getD ""
  let pods1 :=
    match assocGet md.nameToPods (strLower a.name) with
    | some pods => pods
    | none =>
      match assocGet OWNER_TO_POD_SLUGS owner with
      | some slugs => slugs
      | none => if owner = "" then [] else ["non-dsa"]
  match lookupOverride ovs a with
  | some ov =>
    match ov.pods with
    | some ps => if ps.isEmpty then pods1 else ps
    | none => pods1
  | none => pods1

/-- The final (quality, status) pair of the `enrich_assets` body:
`compute_quality` and the incoming status, passed through the metadata.yml
status/visibility override and then through the found override's `status`. -/
def enrichedQS (md : Metadata) (ovs : List (String × Override)) (a : Asset) : Bool × String :=
  let qs1 := applyStatusOverride (assocGet md.nameToStatus (strLower a.name))
    (computeQuality a) a.status
  match lookupOverride ovs a with
  | some ov => applyStatusOverride ov.status qs1.1 qs1.2
  | none => qs1

/-- The per-asset body of `enrich_assets` from `generate.py`.  The Python body
writes each derived field of the asset dict once, as a function of the
adapter-produced fields and the incoming status; the record update below gives
each field's final value directly. -/
def enrichAsset (md : Metadata) (ovs : List (String × Override)) (a : Asset) : Asset :=
  { a with
    featured := enrichedFeatured md ovs a,
    domains := enrichedDomains md ovs a,
    tags := (assocGet md.nameToTags (strLower a.name)).getD [],
    relatedTerms := [],
    quality := (enrichedQS md ovs a).1,
    ownerDisplay := ownerDisplayOf (a.owner.getD ""),
    podSlugs := enrichedPods md ovs a,
    status := (enrichedQS md ovs a).2,
    overrideMetaUpdatedBy := (lookupOverride ovs a).map (fun ov => ov.updatedBy),
    overrideMetaUpdatedAt := (lookupOverride ovs a).map (fun ov => ov.updatedAt),
    overrideMetaNote := (lookupOverride ovs a).map (fun ov => ov.note) }

/-- The loop of `enrich_assets` over all assets. -/
def enrichAssets (md : Metadata) (ovs : List (String × Override))
    (assets : List Asset) : List Asset :=
  assets.map (enrichAsset md ovs)

/-- One glossary/metric record as built by `sources/glossary.py`. -/
structure GlossaryTerm where
  term : String
  definition : String := ""
  category : String := ""
  type : String := ""
  tags : List String := []
  formula : String := ""
  sourceUrl : String := ""
  relatedTermKeys : List String := []
  dashboards : List String := []
deriving Repr, DecidableEq

/-- The link condition of `link_glossary`: the lowercased term is a substring
of the lowercased name or of the lowercased description (absent = `""`). -/
def termMatchesAsset (t : GlossaryTerm) (a : Asset) : Bool :=
  strContains (strLower a.name) (strLower t.term) ||
  strContains (strLower (a.description.getD "")) (strLower t.term)

/-- Effect of `link_glossary` on one glossary term: it appends the names of
all matching assets to its `dashboards` list (in asset order). -/
def linkTermOne (assets : List Asset) (t : GlossaryTerm) : GlossaryTerm :=
  { t with dashboards :=
      t.dashboards ++ (assets.filter (fun a => termMatchesAsset t a)).map (fun a => a.name) }

/-- Effect of `link_glossary` on the glossary terms. -/
def linkTerms (terms : List GlossaryTerm) (assets : List Asset) : List GlossaryTerm :=
  terms.map (linkTermOne assets)

/-- Effect of `link_glossary` on one asset: it appends the names of all
matching terms to its `related_terms` list (in term order). -/
def linkAssetOne (terms : List GlossaryTerm) (a : Asset) : Asset :=
  { a with relatedTerms :=
      a.relatedTerms ++ (terms.filter (fun t => termMatchesAsset t a)).map (fun t => t.term) }

/-- Effect of `link_glossary` on the assets. -/
def linkAssets (terms : List GlossaryTerm) (assets : List Asset) : List Asset :=
  assets.map (linkAssetOne terms)

/-- `status_order.get(a["status"], 2)` from `main`'s sort key. -/
def statusRank (s : String) : Nat :=
  if s = "active" then 0 else if s = "stale" then 1 else 2

/-- The sort key of `main`'s `all_assets.sort`. -/
def sortKey (a : Asset) : Nat × Nat × String :=
  (statusRank a.status, if a.featured then 0 else 1, strLower a.name)

/-- Python's lexicographic comparison of the 3-component sort keys (the third
component compared by code point, as Python compares strings). -/
def assetLe (a b : Asset) : Prop :=
  (sortKey a).1 < (sortKey b).1 ∨
  ((sortKey a).1 = (sortKey b).1 ∧
    ((sortKey a).2.1 < (sortKey b).2.1 ∨
     ((sortKey a).2.1 = (sortKey b).2.1 ∧
       charListLe (sortKey a).2.2.data (sortKey b).2.2.data = true)))

theorem charListLe_total : ∀ s t : List Char, charListLe s t = true ∨ charListLe t s = true
  | [], _ => Or.inl rfl
  | _ :: _, [] => Or.inr rfl
  | c :: cs, d :: ds => by
    by_cases h1 : c.toNat < d.toNat
    · exact Or.inl (by simp [charListLe, h1])
    · by_cases h2 : d.toNat < c.toNat
      · exact Or.inr (by simp [charListLe, h2])
      · rcases charListLe_total cs ds with h | h
        · exact Or.inl (by simp [charListLe, h1, h2, h])
        · exact Or.inr (by simp [charListLe, h1, h2, h])

theorem charListLe_trans : ∀ s t u : List Char, charListLe s t = true →
    charListLe t u = true → charListLe s u = true
  | [], _, _, _, _ => rfl
  | _ :: _, [], _, h, _ => by simp [charListLe] at h
  | _ :: _, _ :: _, [], _, h2 => by simp [charListLe] at h2
  | c :: cs, d :: ds, e :: es, h1, h2 => by
    simp only [charListLe] at h1 h2 ⊢
    by_cases a1 : c.toNat < d.toNat
    · by_cases b1 : d.toNat < e.toNat
      · simp [show c.toNat < e.toNat by omega]
      · by_cases b2 : e.toNat < d.toNat
        · simp [b1, b2] at h2
        · simp [show c.toNat < e.toNat by omega]
    · by_cases a2 : d.toNat < c.toNat
      · simp [a1, a2] at h1
      · simp only [a1, a2, if_false] at h1
        by_cases b1 : d.toNat < e.toNat
        · simp [show c.toNat < e.toNat by omega]
        · by_cases b2 : e.toNat < d.toNat
          · simp [b1, b2] at h2
          · simp only [b1, b2, if_false] at h2
            simp only [show ¬(c.toNat < e.toNat) by omega, show ¬(e.toNat < c.toNat) by omega,
              if_false]
            exact charListLe_trans cs ds es h1 h2

instance : DecidableRel assetLe := fun a b => by
  unfold assetLe; infer_instance

instance : IsTotal Asset assetLe where
  total a b := by
    unfold assetLe
    rcases Nat.lt_trichotomy (sortKey a).1 (sortKey b).1 with h | h | h
    · exact Or.inl (Or.inl h)
    · rcases Nat.lt_trichotomy (sortKey a).2.1 (sortKey b).2.1 with h2 | h2 | h2
      · exact Or.inl (Or.inr ⟨h, Or.inl h2⟩)
      · rcases charListLe_total (sortKey a).2.2.data (sortKey b).2.2.data with h3 | h3
        · exact Or.inl (Or.inr ⟨h, Or.inr ⟨h2, h3⟩⟩)
        · exact Or.inr (Or.inr ⟨h.symm, Or.inr ⟨h2.symm, h3⟩⟩)
      · exact Or.inr (Or.inr ⟨h.symm, Or.inl h2⟩)
    · exact Or.inr (Or.inl h)

instance : IsTrans Asset assetLe where
  trans a b c hab hbc := by
    unfold assetLe at *
    rcases hab with h1 | ⟨e1, h1⟩
    · rcases hbc with h2 | ⟨e2, _⟩
      · exact Or.inl (h1.trans h2)
      · exact Or.inl (e2 ▸ h1)
    · rcases hbc with h2 | ⟨e2, h2⟩
      · exact Or.inl (e1 ▸ h2)
      · refine Or.inr ⟨e1.trans e2, ?_⟩
        rcases h1 with h1 | ⟨f1, h1⟩
        · rcases h2 with h2 | ⟨f2, _⟩
          · exact Or.inl (h1.trans h2)
          · exact Or.inl (f2 ▸ h1)
        · rcases h2 with h2 | ⟨f2, h2⟩
          · exact Or.inl (f1 ▸ h2)
          · exact Or.inr ⟨f1.trans f2, charListLe_trans _ _ _ h1 h2⟩

/-- The ordering stage: Python `list.sort` is a stable sort by the key, which
any stable sorting algorithm realises; we use insertion sort. -/
def sortAssets (assets : List Asset) : List Asset :=
  List.insertionSort assetLe assets

/-- The enrichment + glossary-linking + ordering stages of `main`, as one
function on the merged (assets, glossary terms) state. -/
def pipeline (md : Metadata) (ovs : List (String × Override))
    (x : List Asset × List GlossaryTerm) : List Asset × List GlossaryTerm :=
  let enriched := enrichAssets md ovs x.1
  (sortAssets (linkAssets x.2 enriched), linkTerms x.2 enriched)

/-- One completed fetch task of `main`'s orchestrator: the task name with
either the adapter's returned items or the message of the exception it
raised.  `main` dispatches the successful result on the task name: the
glossary task's items are glossary terms, the other tasks' are assets. -/
inductive Completion where
  | source (name : String) (outcome : Except String (List Asset))
  | glossary (outcome : Except String (List GlossaryTerm))
deriving Repr

/-- One iteration of the `as_completed` loop of `main`: a success extends the
asset (or glossary) accumulator, a failure appends the source-labelled error
string. -/
def orchestrateStep (acc : List Asset × List GlossaryTerm × List String)
    (c : Completion) : List Asset × List GlossaryTerm × List String :=
  match c with
  | .source _ (.ok items) => (acc.1 ++ items, acc.2.1, acc.2.2)
  | .source name (.error e) => (acc.1, acc.2.1, acc.2.2 ++ [name ++ ": " ++ e])
  | .glossary (.ok items) => (acc.1, acc.2.1 ++ items, acc.2.2)
  | .glossary (.error e) => (acc.1, acc.2.1, acc.2.2 ++ ["glossary: " ++ e])

/-- The `as_completed` accumulation loop of `main`; it never stops early. -/
def orchestrate (completions : List Completion) :
    List Asset × List GlossaryTerm × List String :=
  completions.foldl orchestrateStep ([], [], [])

/-- The assets a completed task contributes. -/
def completionAssets : Completion → List Asset
  | .source _ (.ok items) => items
  | _ => []

/-- The glossary terms a completed task contributes. -/
def completionTerms : Completion → List GlossaryTerm
  | .glossary (.ok items) => items
  | _ => []

/-- The error strings a completed task contributes. -/
def completionErrors : Completion → List String
  | .source name (.error e) => [name ++ ": " ++ e]
  | .glossary (.error e) => ["glossary: " ++ e]
  | _ => []

/-- A task that completed successfully. -/
def completionOk : Completion → Bool
  | .source _ (.ok _) => true
  | .glossary (.ok _) => true
  | _ => false

/-- Abstract HTTP response for the pagination models: status code, the
optional Retry-After header value, the page's items (abstracted to strings),
the reported total count (`totalAvailable` / `count`), and the Databricks
`next_page_token`. -/
structure HttpResponse where
  status : Nat := 200
  retryAfter : Option Nat := none
  items : List String := []
  total : Nat := 0
  nextPageToken : Option String := none
deriving Repr, DecidableEq

/-- Outcome of a pagination loop run against a finite response trace
(one scripted response per HTTP request, in order). -/
inductive FetchOutcome where
  | ok (items : List String)
  | httpError (status : Nat)
  | outOfResponses
deriving Repr, DecidableEq

/-- `_paginate` from `sources/tableau.py`, run against a response trace.
`resp.raise_for_status()` raises on every status ≥ 400 — including 429,
for which this loop has no special case. -/
def tableauPaginate (trace : List HttpResponse) (results : List String) : FetchOutcome :=
  match trace with
  | [] => .outOfResponses
  | resp :: rest =>
    if resp.status ≥ 400 then .httpError resp.status
    else
      let results := results ++ resp.items
      if results.length ≥ resp.total ∨ resp.items.isEmpty then .ok results
      else tableauPaginate rest results

/-- `_paginate` from `sources/preset.py` (same loop shape as Tableau's:
`raise_for_status`, accumulate `result`, stop when `count` reached or a page
is empty; no special case for 429 either). -/
def presetPaginate (trace : List HttpResponse) (results : List String) : FetchOutcome :=
  match trace with
  | [] => .outOfResponses
  | resp :: rest =>
    if resp.status ≥ 400 then .httpError resp.status
    else
      let results := results ++ resp.items
      if results.length ≥ resp.total ∨ resp.items.isEmpty then .ok results
      else presetPaginate rest results

/-- `_list_dashboards` from `sources/databricks.py`: on a 429 it sleeps for
`Retry-After` (fallback 10 s; real time is not modelled) and `continue`s, so
the next request repeats the same page; any other status ≥ 400 raises;
otherwise it accumulates the page and follows `next_page_token`. -/
def databricksListDashboards (trace : List HttpResponse) (results : List String) :
    FetchOutcome :=
  match trace with
  | [] => .outOfResponses
  | resp :: rest =>
    if resp.status = 429 then databricksListDashboards rest results
    else if resp.status ≥ 400 then .httpError resp.status
    else
      let results := results ++ resp.items
      match resp.nextPageToken with
      | none => .ok results
      | some _ => databricksListDashboards rest results

/-! ### Concrete fixtures used by witnesses and counterexamples -/

/-- Metadata assigning the name `my dash` the manual domain `Content`. -/
def mdMyDash : Metadata := { nameToDomains := [("my dash", ["Content"])] }

/-- A URL-keyed override store with different domains for the same dashboard. -/
def ovMyDash : Override :=
  { domains := some ["Ads", "Finance & BizOps"], featured := some true, status := some "stale" }

def ovsMyDash : List (String × Override) := [("http://u", ovMyDash)]

def assetMyDash : Asset :=
  { tool := "tableau", name := "My Dash", url := "http://u", status := "active" }

/-- Metadata hiding the dashboard named `my dash`. -/
def mdHidden : Metadata := { nameToStatus := [("my dash", "hidden")] }

/-- The three dashboards of the ordering example. -/
def assetZ : Asset := { tool := "tableau", name := "Z", status := "stale", featured := false }

def assetA : Asset := { tool := "tableau", name := "A", status := "active", featured := true }

def assetB : Asset := { tool := "tableau", name := "B", status := "active", featured := false }

/-- A second dashboard tied with `assetB` on the whole sort key. -/
def assetB2 : Asset := { tool := "preset", name := "B", status := "active", featured := false }

/-- A dashboard and a glossary term whose lowercased term occurs in its name. -/
def assetDAU : Asset := { tool := "tableau", name := "Daily DAU Trends" }

def termDAU : GlossaryTerm := { term := "DAU" }

/-- A completed fetch round in which only the Preset task raised. -/
def cOkTableau : Completion := .source "tableau" (.ok [assetDAU])

def cFailPreset : Completion := .source "preset" (.error "boom")

def cOkDatabricks : Completion := .source "databricks" (.ok [])

def cOkGlossary : Completion := .glossary (.ok [termDAU])

/-- A rate-limited response followed by a complete single page. -/
def resp429 : HttpResponse := { status := 429, retryAfter := some 1 }

def respOkOnePage : HttpResponse :=
  { status := 200, items := ["wb1"], total := 1 }

/-! ### Basic lemmas about the enrichment components -/

theorem applyStatusOverride_fst (v : Option String) (q : Bool) (s : String) :
    (applyStatusOverride v q s).1 = if v = some "hidden" then false else q := by
  rcases v with _ | x
  · simp [applyStatusOverride]
  · simp only [applyStatusOverride]
    split_ifs <;> simp_all

theorem applyStatusOverride_snd_q (v : Option String) (q q' : Bool) (s : String) :
    (applyStatusOverride v q s).2 = (applyStatusOverride v q' s).2 := by
  rcases v with _ | x
  · rfl
  · simp only [applyStatusOverride]
    split_ifs <;> rfl

/-- The status component of the override block is either the identity on the
incoming status or a constant, depending only on the override value. -/
theorem applyStatusOverride_snd_id_or_const (v : Option String) :
    (∀ q s, (applyStatusOverride v q s).2 = s) ∨
    (∃ c, (c = "active" ∨ c = "stale" ∨ c = "unknown") ∧
      ∀ q s, (applyStatusOverride v q s).2 = c) := by
  rcases v with _ | x
  · exact Or.inl fun q s => rfl
  · by_cases h1 : x = "hidden"
    · exact Or.inl fun q s => by simp [applyStatusOverride, h1]
    · by_cases h2 : x = "active" ∨ x = "stale" ∨ x = "unknown"
      · exact Or.inr ⟨x, h2, fun q s => by simp [applyStatusOverride, h1, h2]⟩
      · exact Or.inl fun q s => by simp [applyStatusOverride, h1, h2]

theorem applyStatusOverride_snd_of_not (v : Option String)
    (h : ∀ x, v = some x → ¬(x = "active" ∨ x = "stale" ∨ x = "unknown"))
    (q : Bool) (s : String) : (applyStatusOverride v q s).2 = s := by
  rcases v with _ | x
  · rfl
  · have hx := h x rfl
    simp only [applyStatusOverride]
    split_ifs <;> simp_all

theorem applyStatusOverride_pair_idem (v : Option String) (q : Bool) (s : String) :
    applyStatusOverride v q (applyStatusOverride v q s).2 = applyStatusOverride v q s := by
  rcases applyStatusOverride_snd_id_or_const v with h | ⟨c, _, h⟩
  · rw [h]
  · refine Prod.ext ?_ ?_
    · rw [applyStatusOverride_fst, applyStatusOverride_fst]
    · rw [h, h]

/-- Idempotence of the metadata-then-override status chain. -/
theorem applyStatusOverride_chain_idem (m o : Option String) (q : Bool) (s : String) :
    applyStatusOverride o
      (applyStatusOverride m q
        (applyStatusOverride o (applyStatusOverride m q s).1
          (applyStatusOverride m q s).2).2).1
      (applyStatusOverride m q
        (applyStatusOverride o (applyStatusOverride m q s).1
          (applyStatusOverride m q s).2).2).2
    = applyStatusOverride o (applyStatusOverride m q s).1 (applyStatusOverride m q s).2 := by
  rcases applyStatusOverride_snd_id_or_const o with ho | ⟨c, _, ho⟩
  · rw [ho, applyStatusOverride_pair_idem]
  · refine Prod.ext ?_ ?_
    · simp only [applyStatusOverride_fst]
    · rw [ho, ho]

/-- The override lookup, the quality computation, the domain inference and all
metadata lookups read only adapter-produced fields, which `enrichAsset`
preserves; so re-running them on an enriched asset changes nothing. -/
theorem lookupOverride_enrich (md : Metadata) (ovs : List (String × Override)) (a : Asset) :
    lookupOverride ovs (enrichAsset md ovs a) = lookupOverride ovs a := rfl

theorem enrichedFeatured_enrich (md : Metadata) (ovs : List (String × Override)) (a : Asset) :
    enrichedFeatured md ovs (enrichAsset md ovs a) = enrichedFeatured md ovs a := rfl

theorem enrichedDomains_enrich (md : Metadata) (ovs : List (String × Override)) (a : Asset) :
    enrichedDomains md ovs (enrichAsset md ovs a) = enrichedDomains md ovs a := rfl

theorem enrichedPods_enrich (md : Metadata) (ovs : List (String × Override)) (a : Asset) :
    enrichedPods md ovs (enrichAsset md ovs a) = enrichedPods md ovs a := rfl

/-- Re-running the quality/status chain on an enriched asset (whose status is
the chain's own output) changes nothing. -/
theorem enrichedQS_enrich (md : Metadata) (ovs : List (String × Override)) (a : Asset) :
    enrichedQS md ovs (enrichAsset md ovs a) = enrichedQS md ovs a := by
  have hbody : enrichedQS md ovs (enrichAsset md ovs a) =
      (let qs1 := applyStatusOverride (assocGet md.nameToStatus (strLower a.name))
          (computeQuality a) ((enrichedQS md ovs a).2);
       match lookupOverride ovs a with
       | some ov => applyStatusOverride ov.status qs1.1 qs1.2
       | none => qs1) := rfl
  rw [hbody]
  rcases h : lookupOverride ovs a with _ | ov <;>
    simp only [enrichedQS, h]
  · exact applyStatusOverride_pair_idem _ _ _
  · exact applyStatusOverride_chain_idem _ _ _ _

/-- Field-wise extensionality for assets. -/
theorem Asset.ext' {x y : Asset}
    (h1 : x.tool = y.tool) (h2 : x.name = y.name) (h3 : x.description = y.description)
    (h4 : x.owner = y.owner) (h5 : x.updatedAt = y.updatedAt) (h6 : x.url = y.url)
    (h7 : x.project = y.project) (h8 : x.published = y.published) (h9 : x.status = y.status)
    (h10 : x.domains = y.domains) (h11 : x.tags = y.tags)
    (h12 : x.relatedTerms = y.relatedTerms) (h13 : x.quality = y.quality)
    (h14 : x.featured = y.featured) (h15 : x.ownerDisplay = y.ownerDisplay)
    (h16 : x.podSlugs = y.podSlugs) (h17 : x.overrideMetaUpdatedBy = y.overrideMetaUpdatedBy)
    (h18 : x.overrideMetaUpdatedAt = y.overrideMetaUpdatedAt)
    (h19 : x.overrideMetaNote = y.overrideMetaNote) : x = y := by
  cases x; cases y; simp_all

/-- Enriching an already-enriched asset changes nothing. -/
theorem enrichAsset_idem (md : Metadata) (ovs : List (String × Override)) (a : Asset) :
    enrichAsset md ovs (enrichAsset md ovs a) = enrichAsset md ovs a := by
  refine Asset.ext' rfl rfl rfl rfl rfl rfl rfl rfl ?_ ?_ rfl rfl ?_ ?_ rfl ?_ ?_ ?_ ?_
  · exact congrArg Prod.snd (enrichedQS_enrich md ovs a)
  · exact enrichedDomains_enrich md ovs a
  · exact congrArg Prod.fst (enrichedQS_enrich md ovs a)
  · exact enrichedFeatured_enrich md ovs a
  · exact enrichedPods_enrich md ovs a
  · exact congrArg (Option.map fun ov => ov.updatedBy) (lookupOverride_enrich md ovs a)
  · exact congrArg (Option.map fun ov => ov.updatedAt) (lookupOverride_enrich md ovs a)
  · exact congrArg (Option.map fun ov => ov.note) (lookupOverride_enrich md ovs a)

/-- Enrichment ignores (and resets) the `related_terms` field. -/
theorem enrichAsset_relatedTerms_invariant (md : Metadata) (ovs : List (String × Override))
    (a : Asset) (r : List String) :
    enrichAsset md ovs { a with relatedTerms := r } = enrichAsset md ovs a := by
  cases a; rfl

/-! ### Lemmas about the glossary linker and the ordering stage -/

/-- Linking only appends to `dashboards`; the term string is untouched. -/
theorem linkTermOne_term (l : List Asset) (t : GlossaryTerm) :
    (linkTermOne l t).term = t.term := rfl

/-- The link condition only reads the term string and the asset's name and
description, so linking and enrichment do not disturb it. -/
theorem termMatchesAsset_linkTermOne (l : List Asset) (t : GlossaryTerm) (a : Asset) :
    termMatchesAsset (linkTermOne l t) a = termMatchesAsset t a := rfl

theorem termMatchesAsset_enrich (md : Metadata) (ovs : List (String × Override))
    (t : GlossaryTerm) (a : Asset) :
    termMatchesAsset t (enrichAsset md ovs a) = termMatchesAsset t a := rfl

/-- Filtering matching assets and taking their names is unaffected by a
per-asset map that preserves names, descriptions and hence matches. -/
theorem filter_map_names (t : GlossaryTerm) (f : Asset → Asset)
    (hm : ∀ a, termMatchesAsset t (f a) = termMatchesAsset t a)
    (hn : ∀ a, (f a).name = a.name) (l : List Asset) :
    ((l.map f).filter (fun a => termMatchesAsset t a)).map (fun a => a.name) =
      (l.filter (fun a => termMatchesAsset t a)).map (fun a => a.name) := by
  induction l with
  | nil => rfl
  | cons x xs ih =>
    by_cases h : termMatchesAsset t x
    · simp [List.filter_cons, hm, hn, h, ih]
    · simp [List.filter_cons, hm, h, ih]

/-- Filtering matching terms and taking their term strings is unaffected by a
per-term map that preserves the term string. -/
theorem filter_map_terms (a : Asset) (g : GlossaryTerm → GlossaryTerm)
    (ht : ∀ t, (g t).term = t.term) (ts : List GlossaryTerm) :
    ((ts.map g).filter (fun t => termMatchesAsset t a)).map (fun t => t.term) =
      (ts.filter (fun t => termMatchesAsset t a)).map (fun t => t.term) := by
  induction ts with
  | nil => rfl
  | cons x xs ih =>
    have hm : termMatchesAsset (g x) a = termMatchesAsset x a := by
      unfold termMatchesAsset; rw [ht]
    by_cases h : termMatchesAsset x a
    · simp [List.filter_cons, hm, ht, h, ih]
    · simp [List.filter_cons, hm, h, ih]

/-- Linking an asset against already-linked terms is the same as linking it
against the original terms. -/
theorem linkAssetOne_linkTerms (ts : List GlossaryTerm) (l : List Asset) (a : Asset) :
    linkAssetOne (linkTerms ts l) a = linkAssetOne ts a := by
  unfold linkAssetOne linkTerms
  rw [filter_map_terms a (linkTermOne l) (fun t => rfl) ts]

/-- Re-enriching a linked enriched asset gives back the enriched asset. -/
theorem enrich_link_enrich (md : Metadata) (ovs : List (String × Override))
    (ts : List GlossaryTerm) (b : Asset) :
    enrichAsset md ovs (linkAssetOne ts (enrichAsset md ovs b)) = enrichAsset md ovs b := by
  unfold linkAssetOne
  rw [enrichAsset_relatedTerms_invariant, enrichAsset_idem]

/-- Re-linking (against the linked terms) a re-enriched linked asset gives
back the linked asset. -/
theorem link_enrich_link (md : Metadata) (ovs : List (String × Override))
    (ts : List GlossaryTerm) (l : List Asset) (b : Asset) :
    linkAssetOne (linkTerms ts l)
        (enrichAsset md ovs (linkAssetOne ts (enrichAsset md ovs b)))
      = linkAssetOne ts (enrichAsset md ovs b) := by
  rw [enrich_link_enrich, linkAssetOne_linkTerms]

/-- Linking a term against enriched assets equals linking it against the
assets themselves (names and descriptions are preserved). -/
theorem linkTermOne_enrichAssets (md : Metadata) (ovs : List (String × Override))
    (l : List Asset) (t : GlossaryTerm) :
    linkTermOne (enrichAssets md ovs l) t = linkTermOne l t := by
  unfold linkTermOne enrichAssets
  rw [filter_map_names t (enrichAsset md ovs) (fun a => rfl) (fun a => rfl) l]

/-- Sorting a sorted list leaves it unchanged. -/
theorem sortAssets_idem (l : List Asset) : sortAssets (sortAssets l) = sortAssets l :=
  List.Sorted.insertionSort_eq (List.sorted_insertionSort assetLe l)

/-! ### Lemmas about the orchestrator loop -/

theorem completionErrors_of_ok (c : Completion) (h : completionOk c = true) :
    completionErrors c = [] := by
  rcases c with ⟨name, out⟩ | out <;> rcases out with e | items <;>
    simp_all [completionOk, completionErrors]

theorem orchestrate_go (cs : List Completion)
    (acc : List Asset × List GlossaryTerm × List String) :
    cs.foldl orchestrateStep acc =
      (acc.1 ++ (cs.map completionAssets).flatten,
       acc.2.1 ++ (cs.map completionTerms).flatten,
       acc.2.2 ++ (cs.map completionErrors).flatten) := by
  induction cs generalizing acc with
  | nil => simp
  | cons c rest ih =>
    rcases c with ⟨name, out⟩ | out <;> rcases out with e | items <;>
      simp [orchestrateStep, ih, completionAssets, completionTerms, completionErrors,
        List.append_assoc]

/-- The orchestrator's result is the concatenation of the per-task
contributions, in completion order. -/
theorem orchestrate_eq (cs : List Completion) :
    orchestrate cs =
      ((cs.map completionAssets).flatten,
       (cs.map completionTerms).flatten,
       (cs.map completionErrors).flatten) := by
  simpa [orchestrate] using orchestrate_go cs ([], [], [])

/-! ### The keyword-rule accumulation -/

theorem keywordDomains_foldl (nl : String) (rules : List (List String × String))
    (acc : List String) (h : (acc ++ rules.map (fun r => r.2)).Nodup) :
    rules.foldl
      (fun domains rule =>
        if rule.1.any (fun kw => strContains nl kw) then
          if domains.contains rule.2 then domains else domains ++ [rule.2]
        else domains)
      acc
    = acc ++ (rules.filter (fun r => r.1.any (fun kw => strContains nl kw))).map
        (fun r => r.2) := by
  induction rules generalizing acc with
  | nil => simp
  | cons r rs ih =>
    have hsub : (acc ++ rs.map (fun r => r.2)).Sublist (acc ++ r.2 :: rs.map (fun r => r.2)) :=
      (List.Sublist.refl acc).append (List.sublist_cons_self _ _)
    have hnotmem : r.2 ∉ acc := by
      intro hmem
      exact (List.disjoint_of_nodup_append h) hmem (List.mem_cons_self _ _)
    by_cases hfire : r.1.any (fun kw => strContains nl kw)
    · have hcontains : acc.contains r.2 = false := by
        simp only [List.contains_eq_any_beq, List.any_eq_false]
        intro x hx
        simp only [beq_iff_eq]
        intro hx2
        exact hnotmem (hx2 ▸ hx)
      have h' : ((acc ++ [r.2]) ++ rs.map (fun r => r.2)).Nodup := by
        simpa [List.append_assoc] using h
      simp only [List.foldl_cons, hfire, if_true, hcontains, Bool.false_eq_true, if_false]
      rw [ih (acc ++ [r.2]) h']
      simp [List.filter_cons, hfire, List.append_assoc]
    · simp only [List.foldl_cons, hfire, Bool.false_eq_true, if_false]
      rw [ih acc (h.sublist hsub)]
      simp [List.filter_cons, hfire]

/-- The keyword loop collects, in rule-declaration order, the domain of every
rule one of whose keywords occurs in the name; since each rule carries a
distinct domain the de-duplication never drops anything. -/
theorem keywordDomains_eq (nl : String) :
    keywordDomains nl =
      (KEYWORD_DOMAIN_RULES.filter (fun r => r.1.any (fun kw => strContains nl kw))).map
        (fun r => r.2) := by
  have h := keywordDomains_foldl nl KEYWORD_DOMAIN_RULES [] (by decide)
  simpa [keywordDomains] using h

/-- `_infer_domains` never returns an empty list: the project branch returns a
singleton and the keyword branch falls back to the catch-all domain. -/
theorem inferDomains_ne_nil (a : Asset) : inferDomains a ≠ [] := by
  have hkw : ∀ nl : String,
      (if (keywordDomains nl).isEmpty then ["General Tubi"] else keywordDomains nl) ≠ [] := by
    intro nl
    by_cases h : (keywordDomains nl).isEmpty
    · simp [h]
    · simp only [h, if_false]
      simpa [List.isEmpty_iff] using h
  rcases hp : a.project with _ | p
  · simpa [inferDomains, hp] using hkw (strLower a.name)
  · by_cases hp0 : p = ""
    · simpa [inferDomains, hp, hp0] using hkw (strLower a.name)
    · rcases hm : assocGet PROJECT_TO_DOMAIN p with _ | md0
      · simpa [inferDomains, hp, hp0, hm] using hkw (strLower a.name)
      · rcases md0 with _ | d
        · simpa [inferDomains, hp, hp0, hm] using hkw (strLower a.name)
        · simp [inferDomains, hp, hp0, hm]

/-- Every element of the pipeline's asset output is a linked enriched asset. -/
theorem pipeline_asset_shape (md : Metadata) (ovs : List (String × Override))
    (x : List Asset × List GlossaryTerm) (y : Asset) (hy : y ∈ (pipeline md ovs x).1) :
    ∃ b, y = linkAssetOne x.2 (enrichAsset md ovs b) := by
  unfold pipeline sortAssets at hy
  rw [List.mem_insertionSort] at hy
  unfold linkAssets enrichAssets at hy
  simp only [List.map_map, List.mem_map, Function.comp] at hy
  obtain ⟨b, _, rfl⟩ := hy
  exact ⟨b, rfl⟩

/-! ### Claim theorems -/

/-- C7: for every asset, the computed freshness status is `"unknown"` when
`updated_at` is absent, `"active"` when `now − updated_at` is at most 30
days, and `"stale"` otherwise. -/
theorem C7_freshness_status (now : Int) (a : Asset) :
    (a.updatedAt = none → computeStatus now a = "unknown") ∧
    (∀ t, a.updatedAt = some t → now - t ≤ 30 * 86400 → computeStatus now a = "active") ∧
    (∀ t, a.updatedAt = some t → ¬(now - t ≤ 30 * 86400) → computeStatus now a = "stale") := by
  refine ⟨fun h => ?_, fun t h hle => ?_, fun t h hgt => ?_⟩ <;>
    simp_all [computeStatus, STALE_DAYS]

/-- Witness for C7 at concrete instants: exactly 30 days old is active, one
second beyond is stale, and a missing timestamp is unknown. -/
theorem C7_freshness_status_witness :
    computeStatus 2592000 { tool := "tableau", name := "d", updatedAt := some 0 } = "active" ∧
    computeStatus 2592001 { tool := "tableau", name := "d", updatedAt := some 0 } = "stale" ∧
    computeStatus 0 { tool := "tableau", name := "d" } = "unknown" :=
  ⟨(C7_freshness_status 2592000 _).2.1 0 rfl (by decide),
   (C7_freshness_status 2592001 _).2.2 0 rfl (by decide),
   (C7_freshness_status 0 _).1 rfl⟩

/-- C4: after enrichment (including any override), every asset has at least
one domain; the catch-all is `"General Tubi"`. -/
theorem C4_domains_nonempty (md : Metadata) (ovs : List (String × Override)) (a : Asset) :
    (enrichAsset md ovs a).domains ≠ [] := by
  show enrichedDomains md ovs a ≠ []
  have hd1 :
      (match assocGet md.nameToDomains (strLower a.name) with
       | some ds => if ds.isEmpty then inferDomains a else ds
       | none => inferDomains a) ≠ [] := by
    rcases hm : assocGet md.nameToDomains (strLower a.name) with _ | ds
    · simpa using inferDomains_ne_nil a
    · by_cases he : ds.isEmpty
      · simpa [he] using inferDomains_ne_nil a
      · simpa [he] using (List.isEmpty_eq_false.mp (Bool.not_eq_true _ ▸ by simpa using he))
  unfold enrichedDomains
  rcases ho : lookupOverride ovs a with _ | ov
  · simpa [ho] using hd1
  · rcases hods : ov.domains with _ | ds2
    · simpa [ho, hods] using hd1
    · by_cases he2 : ds2.isEmpty
      · simpa [ho, hods, he2] using hd1
      · simpa [ho, hods, he2] using List.isEmpty_eq_false.mp (by simpa using he2)

/-- C8: the quality predicate returns `false` exactly when the trimmed name is
empty, or the lowercased trimmed name is a known placeholder, or it starts
with a junk prefix, or it starts/ends with the word `test`, or it equals or
starts/ends with the word `tmp`, or the asset is Preset-sourced and
explicitly marked unpublished; otherwise `true` — in particular `true` for
`"Q3 Revenue Overview"`. -/
theorem C8_quality_characterization (a : Asset) :
    (computeQuality a = false ↔
      (strTrim a.name = "" ∨
       strLower (strTrim a.name) ∈ BAD_NAME_EXACT ∨
       (∃ p ∈ BAD_NAME_PREFIXES, strStartsWith (strLower (strTrim a.name)) p = true) ∨
       strStartsWith (strLower (strTrim a.name)) "test " = true ∨
       strEndsWith (strLower (strTrim a.name)) " test" = true ∨
       strLower (strTrim a.name) = "tmp" ∨
       strStartsWith (strLower (strTrim a.name)) "tmp " = true ∨
       strEndsWith (strLower (strTrim a.name)) " tmp" = true ∨
       (a.tool = "preset" ∧ a.published = some false))) ∧
    computeQuality { tool := "tableau", name := "Q3 Revenue Overview" } = true := by
  refine ⟨?_, by decide⟩
  unfold computeQuality
  have hpub : (a.tool = "preset" && !(a.published.getD true)) = true ↔
      (a.tool = "preset" ∧ a.published = some false) := by
    rcases a.published with _ | b
    · simp
    · cases b <;> simp
  by_cases h0 : strTrim a.name = ""
  · simp [h0]
  · simp only [h0, if_false, if_neg h0, false_or]
    by_cases h1 : BAD_NAME_EXACT.contains (strLower (strTrim a.name))
    · simp only [h1, if_true]
      have : strLower (strTrim a.name) ∈ BAD_NAME_EXACT := by simpa using h1
      simp [this]
    · have h1' : ¬(strLower (strTrim a.name) ∈ BAD_NAME_EXACT) := by simpa using h1
      simp only [h1, Bool.false_eq_true, if_false]
      by_cases h2 : BAD_NAME_PREFIXES.any (fun p => strStartsWith (strLower (strTrim a.name)) p)
      · have : ∃ p ∈ BAD_NAME_PREFIXES, strStartsWith (strLower (strTrim a.name)) p = true :=
          List.any_eq_true.mp h2
        simp [h2, this]
      · have h2' : ¬∃ p ∈ BAD_NAME_PREFIXES,
            strStartsWith (strLower (strTrim a.name)) p = true := fun hc =>
          h2 (List.any_eq_true.mpr hc)
        simp only [h2, Bool.false_eq_true, if_false]
        by_cases h3 : (strStartsWith (strLower (strTrim a.name)) "test " ||
            strEndsWith (strLower (strTrim a.name)) " test") = true
        · rcases (by simpa using h3 :
              strStartsWith (strLower (strTrim a.name)) "test " = true ∨
              strEndsWith (strLower (strTrim a.name)) " test" = true) with h | h <;>
            simp [h3, h, h1']
        · have h3' := h3
          simp only [Bool.or_eq_true, not_or] at h3'
          simp only [h3, Bool.false_eq_true, if_false]
          by_cases h4 : (decide (strLower (strTrim a.name) = "tmp") ||
              strStartsWith (strLower (strTrim a.name)) "tmp " ||
              strEndsWith (strLower (strTrim a.name)) " tmp") = true
          · rcases (by simpa [or_assoc] using h4 :
                strLower (strTrim a.name) = "tmp" ∨
                strStartsWith (strLower (strTrim a.name)) "tmp " = true ∨
                strEndsWith (strLower (strTrim a.name)) " tmp" = true) with h | h | h <;>
              simp [h4, h, h1', h2', h3'.1, h3'.2]
          · have h4' := h4
            simp only [Bool.or_eq_true, not_or, decide_eq_true_eq] at h4'
            simp only [h4, Bool.false_eq_true, if_false]
            by_cases h5 : (a.tool = "preset" && !(a.published.getD true)) = true
            · simp [h5, hpub.mp h5]
            · simp only [h5, Bool.false_eq_true, if_false]
              simp only [Bool.true_eq_false, false_iff]
              intro hcon
              rcases hcon with h | hex | h | h | h | h | h | hq
              · exact h1' h
              · exact h2' hex
              · exact h3'.1 h
              · exact h3'.2 h
              · exact h4'.1.1 h
              · exact h4'.1.2 h
              · exact h4'.2 h
              · exact h5 (hpub.mpr hq)

/-- Witness for C4 at a concrete asset with no matching configuration. -/
theorem C4_domains_nonempty_witness :
    (enrichAsset {} [] { tool := "tableau", name := "zzz" }).domains ≠ [] :=
  C4_domains_nonempty {} [] { tool := "tableau", name := "zzz" }

/-- C3: domain inference precedence — a project with a non-null mapping wins
with exactly that single domain; a null mapping behaves as if the asset had
no project (falls through to keyword matching); the keyword stage collects
every firing rule's domain de-duplicated in rule-declaration order; and the
name `"AdOps Yield Dashboard"` with no project, manual mapping or override
gets a domain set containing `"Ads"`. -/
theorem C3_domain_inference :
    (∀ (a : Asset) (p d : String), a.project = some p → p ≠ "" →
        assocGet PROJECT_TO_DOMAIN p = some (some d) → inferDomains a = [d]) ∧
    (∀ (a : Asset) (p : String), a.project = some p →
        assocGet PROJECT_TO_DOMAIN p = some none →
        inferDomains a = inferDomains { a with project := none }) ∧
    (∀ nl : String, keywordDomains nl =
        (KEYWORD_DOMAIN_RULES.filter (fun r => r.1.any (fun kw => strContains nl kw))).map
          (fun r => r.2)) ∧
    (∀ nl : String, (keywordDomains nl).Nodup) ∧
    "Ads" ∈ (enrichAsset {} [] { tool := "tableau", name := "AdOps Yield Dashboard" }).domains := by
  refine ⟨?_, ?_, keywordDomains_eq, ?_, by decide⟩
  · intro a p d hp hp0 hm
    simp [inferDomains, hp, hp0, hm]
  · intro a p hp hm
    by_cases hp0 : p = ""
    · simp [inferDomains, hp, hp0]
    · simp [inferDomains, hp, hp0, hm]
  · intro nl
    rw [keywordDomains_eq]
    have hnd : (KEYWORD_DOMAIN_RULES.map (fun r => r.2)).Nodup := by decide
    exact hnd.sublist
      ((List.filter_sublist KEYWORD_DOMAIN_RULES).map (fun r : List String × String => r.2))

/-- Witness for C3: the project `"FP&A"` maps to its single domain, and the
personal folder `"Xueling Chen"` (null mapping) falls through to keyword
matching exactly as if no project were set. -/
theorem C3_domain_inference_witness :
    inferDomains { tool := "tableau", name := "Budget Book", project := some "FP&A" } =
      ["Finance & BizOps"] ∧
    inferDomains { tool := "tableau", name := "Churn Report", project := some "Xueling Chen" } =
      inferDomains { tool := "tableau", name := "Churn Report", project := none } :=
  ⟨C3_domain_inference.1 _ "FP&A" "Finance & BizOps" rfl (by decide) (by decide),
   C3_domain_inference.2.1 _ "Xueling Chen" rfl (by decide)⟩

/-- C1: the manual override is looked up by exact URL, else exact name, else
lowercased name, first hit winning; a found override's provided `domains`,
`pods`, `featured` and (freshness) `status` fields replace the computed
values wholesale; in particular an asset matched by both a per-name manual
domain configuration and a URL-keyed override ends with exactly the
override's domains. -/
theorem C1_override_precedence :
    (∀ (ovs : List (String × Override)) (a : Asset) (ov : Override),
        assocGet ovs a.url = some ov → lookupOverride ovs a = some ov) ∧
    (∀ (ovs : List (String × Override)) (a : Asset) (ov : Override),
        assocGet ovs a.url = none → assocGet ovs a.name = some ov →
        lookupOverride ovs a = some ov) ∧
    (∀ (ovs : List (String × Override)) (a : Asset) (ov : Override),
        assocGet ovs a.url = none → assocGet ovs a.name = none →
        assocGet ovs (strLower a.name) = some ov → lookupOverride ovs a = some ov) ∧
    (∀ (md : Metadata) (ovs : List (String × Override)) (a : Asset) (ov : Override),
        lookupOverride ovs a = some ov →
        (∀ ds, ov.domains = some ds → ds ≠ [] → (enrichAsset md ovs a).domains = ds) ∧
        (∀ ps, ov.pods = some ps → ps ≠ [] → (enrichAsset md ovs a).podSlugs = ps) ∧
        (∀ b, ov.featured = some b → (enrichAsset md ovs a).featured = b) ∧
        (∀ s, ov.status = some s → s = "active" ∨ s = "stale" ∨ s = "unknown" →
            (enrichAsset md ovs a).status = s)) ∧
    (∀ (md : Metadata) (ovs : List (String × Override)) (a : Asset) (ov : Override)
        (ds mds : List String),
        assocGet md.nameToDomains (strLower a.name) = some mds →
        assocGet ovs a.url = some ov → ov.domains = some ds → ds ≠ [] →
        (enrichAsset md ovs a).domains = ds) := by
  have hurl : ∀ (ovs : List (String × Override)) (a : Asset) (ov : Override),
      assocGet ovs a.url = some ov → lookupOverride ovs a = some ov := by
    intro ovs a ov h; simp [lookupOverride, h]
  have hdom : ∀ (md : Metadata) (ovs : List (String × Override)) (a : Asset) (ov : Override),
      lookupOverride ovs a = some ov →
      ∀ ds, ov.domains = some ds → ds ≠ [] → (enrichAsset md ovs a).domains = ds := by
    intro md ovs a ov h ds hds hne
    show enrichedDomains md ovs a = ds
    unfold enrichedDomains
    rcases ds with _ | ⟨d0, ds0⟩
    · exact absurd rfl hne
    · simp [h, hds]
  refine ⟨hurl, ?_, ?_, ?_, ?_⟩
  · intro ovs a ov h1 h2; simp [lookupOverride, h1, h2]
  · intro ovs a ov h1 h2 h3; simp [lookupOverride, h1, h2, h3]
  · intro md ovs a ov h
    refine ⟨hdom md ovs a ov h, ?_, ?_, ?_⟩
    · intro ps hps hne
      show enrichedPods md ovs a = ps
      unfold enrichedPods
      rcases ps with _ | ⟨p0, ps0⟩
      · exact absurd rfl hne
      · simp [h, hps]
    · intro b hb
      show enrichedFeatured md ovs a = b
      unfold enrichedFeatured
      simp [h, hb]
    · intro s hs hvalid
      show (enrichedQS md ovs a).2 = s
      unfold enrichedQS
      simp only [h, hs]
      rcases hvalid with h' | h' | h' <;> subst h' <;> simp [applyStatusOverride]
  · intro md ovs a ov ds mds hmd hurl2 hds hne
    exact hdom md ovs a ov (hurl ovs a ov hurl2) ds hds hne

/-- Witness for C1: a dashboard matched by a per-name manual domain
configuration and by a URL-keyed override with different domains ends with
exactly the override's domains; the override also flips `featured` and
replaces the status. -/
theorem C1_override_precedence_witness :
    (enrichAsset mdMyDash ovsMyDash assetMyDash).domains = ["Ads", "Finance & BizOps"] ∧
    (enrichAsset mdMyDash ovsMyDash assetMyDash).featured = true ∧
    (enrichAsset mdMyDash ovsMyDash assetMyDash).status = "stale" :=
  ⟨C1_override_precedence.2.2.2.2 mdMyDash ovsMyDash assetMyDash ovMyDash
      ["Ads", "Finance & BizOps"] ["Content"] (by decide) (by decide) rfl (by decide),
   (C1_override_precedence.2.2.2.1 mdMyDash ovsMyDash assetMyDash ovMyDash rfl).2.2.1
      true rfl,
   (C1_override_precedence.2.2.2.1 mdMyDash ovsMyDash assetMyDash ovMyDash rfl).2.2.2
      "stale" rfl (by decide)⟩

/-- C10: a `"hidden"` status entry (metadata or override) forces quality to
`false` but is never written into the status field: the status only ever
changes to one of `active`/`stale`/`unknown`, so after enrichment of a
computed status it remains one of those three. -/
theorem C10_hidden_forces_quality (md : Metadata) (ovs : List (String × Override)) (a : Asset) :
    ((assocGet md.nameToStatus (strLower a.name) = some "hidden" ∨
      (∃ ov, lookupOverride ovs a = some ov ∧ ov.status = some "hidden")) →
        (enrichAsset md ovs a).quality = false) ∧
    ((∀ s, assocGet md.nameToStatus (strLower a.name) = some s →
        ¬(s = "active" ∨ s = "stale" ∨ s = "unknown")) →
     (∀ ov s, lookupOverride ovs a = some ov → ov.status = some s →
        ¬(s = "active" ∨ s = "stale" ∨ s = "unknown")) →
     (enrichAsset md ovs a).status = a.status) ∧
    ((a.status = "active" ∨ a.status = "stale" ∨ a.status = "unknown") →
      ((enrichAsset md ovs a).status = "active" ∨ (enrichAsset md ovs a).status = "stale" ∨
       (enrichAsset md ovs a).status = "unknown")) ∧
    (∀ now : Int, computeStatus now a = "active" ∨ computeStatus now a = "stale" ∨
       computeStatus now a = "unknown") := by
  refine ⟨?_, ?_, ?_, ?_⟩
  · intro hcase
    show (enrichedQS md ovs a).1 = false
    unfold enrichedQS
    rcases hcase with hmd | ⟨ov, hov, hs⟩
    · rcases hlo : lookupOverride ovs a with _ | ov
      · simp [hlo, hmd, applyStatusOverride_fst]
      · simp [hlo, hmd, applyStatusOverride_fst]
    · simp [hov, hs, applyStatusOverride_fst]
  · intro hmd hov
    show (enrichedQS md ovs a).2 = a.status
    unfold enrichedQS
    rcases hlo : lookupOverride ovs a with _ | ov
    · simp only [hlo]
      exact applyStatusOverride_snd_of_not _ hmd _ _
    · simp only [hlo]
      rw [applyStatusOverride_snd_of_not _ (fun x hx => hov ov x hlo hx) _ _]
      exact applyStatusOverride_snd_of_not _ hmd _ _
  · intro hin
    have key : ∀ (v : Option String) (q : Bool) (s : String),
        (s = "active" ∨ s = "stale" ∨ s = "unknown") →
        ((applyStatusOverride v q s).2 = "active" ∨ (applyStatusOverride v q s).2 = "stale" ∨
         (applyStatusOverride v q s).2 = "unknown") := by
      intro v q s hs
      rcases applyStatusOverride_snd_id_or_const v with hid | ⟨c, hc, hval⟩
      · rw [hid]; exact hs
      · rw [hval]
        exact hc
    show ((enrichedQS md ovs a).2 = "active" ∨ (enrichedQS md ovs a).2 = "stale" ∨
      (enrichedQS md ovs a).2 = "unknown")
    unfold enrichedQS
    rcases hlo : lookupOverride ovs a with _ | ov
    · simp only [hlo]
      exact key _ _ _ hin
    · simp only [hlo]
      exact key _ _ _ (key _ _ _ hin)
  · intro now
    unfold computeStatus
    rcases a.updatedAt with _ | t
    · simp
    · by_cases h : now - t ≤ STALE_DAYS * 86400 <;> simp [h]

/-- Witness for C10: a metadata `hidden` entry for `"My Dash"` makes the
asset's quality `false` while its computed `"active"` status is untouched. -/
theorem C10_hidden_forces_quality_witness :
    (enrichAsset mdHidden [] assetMyDash).quality = false ∧
    (enrichAsset mdHidden [] assetMyDash).status = "active" := by
  refine ⟨(C10_hidden_forces_quality mdHidden [] assetMyDash).1 (Or.inl (by decide)), ?_⟩
  exact (C10_hidden_forces_quality mdHidden [] assetMyDash).2.1
    (fun s hs => by
      have hh : some "hidden" = some s := hs
      cases hh
      decide)
    (fun ov s hov _ => Option.noConfusion hov)

/-- C9: the ordering stage is a stable sort of the asset sequence by status
rank (active, stale, unknown), then featured first, then lowercased name
ascending: the output is sorted by that key, is a permutation of the input,
key-tied pairs keep their relative order, and the example
`[Z stale, A active+featured, B active]` sorts to `["A", "B", "Z"]`. -/
theorem C9_ordering_stage :
    (∀ l : List Asset, List.Sorted assetLe (sortAssets l)) ∧
    (∀ l : List Asset, (sortAssets l).Perm l) ∧
    (∀ (a b : Asset) (l : List Asset), assetLe a b → ([a, b] : List Asset).Sublist l →
        ([a, b] : List Asset).Sublist (sortAssets l)) ∧
    (sortAssets [assetZ, assetA, assetB]).map (fun x => x.name) = ["A", "B", "Z"] :=
  ⟨fun l => List.sorted_insertionSort assetLe l,
   fun l => List.perm_insertionSort assetLe l,
   fun _ _ _ hab h => List.pair_sublist_insertionSort hab h,
   by decide⟩

/-- Witness for C9: two assets tied on the whole sort key (same status,
featured flag, and lowercased name) keep their input order. -/
theorem C9_ordering_stage_witness :
    ([assetB, assetB2] : List Asset).Sublist (sortAssets [assetA, assetB, assetB2]) :=
  C9_ordering_stage.2.2.1 assetB assetB2 [assetA, assetB, assetB2] (by decide) (by decide)

/-- C2: if exactly one source task raises and every other task succeeds, the
orchestrator's error list is exactly the one source-labelled entry, and every
asset (and glossary term) of the successful tasks reaches the merged result. -/
theorem C2_partial_failure (pre post : List Completion) (failedName msg : String)
    (hok : ∀ c ∈ pre ++ post, completionOk c = true) :
    (orchestrate (pre ++ Completion.source failedName (Except.error msg) :: post)).2.2 =
      [failedName ++ ": " ++ msg] ∧
    (∀ (nm : String) (items : List Asset),
        Completion.source nm (Except.ok items) ∈
          pre ++ Completion.source failedName (Except.error msg) :: post →
        ∀ a ∈ items,
          a ∈ (orchestrate (pre ++ Completion.source failedName (Except.error msg) :: post)).1) ∧
    (∀ items : List GlossaryTerm,
        Completion.glossary (Except.ok items) ∈
          pre ++ Completion.source failedName (Except.error msg) :: post →
        ∀ t ∈ items,
          t ∈ (orchestrate
            (pre ++ Completion.source failedName (Except.error msg) :: post)).2.1) := by
  refine ⟨?_, ?_, ?_⟩
  · rw [orchestrate_eq]
    show ((pre ++ Completion.source failedName (Except.error msg) :: post).map
        completionErrors).flatten = _
    have hpre : (pre.map completionErrors).flatten = [] := by
      rw [List.flatten_eq_nil_iff]
      intro l hl
      rw [List.mem_map] at hl
      obtain ⟨c, hc, rfl⟩ := hl
      exact completionErrors_of_ok c (hok c (List.mem_append_left _ hc))
    have hpost : (post.map completionErrors).flatten = [] := by
      rw [List.flatten_eq_nil_iff]
      intro l hl
      rw [List.mem_map] at hl
      obtain ⟨c, hc, rfl⟩ := hl
      exact completionErrors_of_ok c (hok c (List.mem_append_right _ hc))
    simp [hpre, hpost, completionErrors]
  · intro nm items hmem a ha
    rw [orchestrate_eq]
    show a ∈ ((pre ++ Completion.source failedName (Except.error msg) :: post).map
        completionAssets).flatten
    exact List.mem_flatten.mpr
      ⟨items, List.mem_map_of_mem completionAssets hmem, ha⟩
  · intro items hmem t ht
    rw [orchestrate_eq]
    show t ∈ ((pre ++ Completion.source failedName (Except.error msg) :: post).map
        completionTerms).flatten
    exact List.mem_flatten.mpr
      ⟨items, List.mem_map_of_mem completionTerms hmem, ht⟩

/-- Witness for C2: of four tasks, only the Preset one raises; the error list
is exactly `["preset: boom"]` and the Tableau asset and glossary term still
arrive. -/
theorem C2_partial_failure_witness :
    (orchestrate [cOkTableau, cFailPreset, cOkDatabricks, cOkGlossary]).2.2 =
      ["preset: boom"] ∧
    assetDAU ∈ (orchestrate [cOkTableau, cFailPreset, cOkDatabricks, cOkGlossary]).1 ∧
    termDAU ∈ (orchestrate [cOkTableau, cFailPreset, cOkDatabricks, cOkGlossary]).2.1 := by
  have h := C2_partial_failure [cOkTableau] [cOkDatabricks, cOkGlossary] "preset" "boom"
    (by decide)
  exact ⟨h.1,
    h.2.1 "tableau" [assetDAU]
      (List.mem_append_left _ (List.mem_cons_self _ _)) assetDAU (List.mem_cons_self _ _),
    h.2.2 [termDAU]
      (List.mem_append_right _ (by
        exact List.mem_cons_of_mem _ (List.mem_cons_of_mem _ (List.mem_cons_self _ _))))
      termDAU (List.mem_cons_self _ _)⟩

/-- C6 counterexample: on the same trace — a 429 followed by a complete
page — the Tableau pagination aborts with the HTTP error (`raise_for_status`
raises on 429), the Preset pagination likewise, while the Databricks one
retries and succeeds; so it is false that every adapter's pagination
tolerates a 429 by retrying. -/
theorem C6_counterexample :
    tableauPaginate [resp429, respOkOnePage] [] = FetchOutcome.httpError 429 ∧
    tableauPaginate [resp429, respOkOnePage] [] ≠ FetchOutcome.ok ["wb1"] ∧
    presetPaginate [resp429, respOkOnePage] [] = FetchOutcome.httpError 429 ∧
    presetPaginate [resp429, respOkOnePage] [] ≠ FetchOutcome.ok ["wb1"] ∧
    databricksListDashboards [resp429, respOkOnePage] [] = FetchOutcome.ok ["wb1"] := by
  refine ⟨by decide, by decide, by decide, by decide, by decide⟩

/-- C6 (amended): only the Databricks dashboard-listing pagination tolerates
HTTP 429 — it sleeps for the Retry-After interval (fallback 10 s) and retries
the same page; the Tableau and Preset paginations raise on any status ≥ 400,
429 included, aborting that fetch. -/
theorem C6_only_databricks_retries (resp : HttpResponse) (rest : List HttpResponse)
    (acc : List String) (h : resp.status = 429) :
    tableauPaginate (resp :: rest) acc = FetchOutcome.httpError 429 ∧
    presetPaginate (resp :: rest) acc = FetchOutcome.httpError 429 ∧
    databricksListDashboards (resp :: rest) acc = databricksListDashboards rest acc := by
  refine ⟨?_, ?_, ?_⟩
  · unfold tableauPaginate
    rw [h]
    simp
  · unfold presetPaginate
    rw [h]
    simp
  · unfold databricksListDashboards
    rw [h]
    simp only [if_true, reduceIte]
    cases rest <;> rfl

/-- Witness for C6 (amended), at the concrete 429-then-page trace. -/
theorem C6_only_databricks_retries_witness :
    tableauPaginate [resp429, respOkOnePage] [] = FetchOutcome.httpError 429 ∧
    presetPaginate [resp429, respOkOnePage] [] = FetchOutcome.httpError 429 ∧
    databricksListDashboards [resp429, respOkOnePage] [] =
      databricksListDashboards [respOkOnePage] [] :=
  C6_only_databricks_retries resp429 [respOkOnePage] [] rfl

/-- Witness for C8 at concrete names: the placeholder name
`"Untitled Dashboard"` is rejected and `"Q3 Revenue Overview"` accepted. -/
theorem C8_quality_characterization_witness :
    computeQuality { tool := "tableau", name := "Untitled Dashboard" } = false ∧
    computeQuality { tool := "tableau", name := "Q3 Revenue Overview" } = true :=
  ⟨(C8_quality_characterization { tool := "tableau", name := "Untitled Dashboard" }).1.mpr
      (Or.inr (Or.inl (by decide))),
   (C8_quality_characterization { tool := "tableau", name := "Q3 Revenue Overview" }).2⟩

/-- C5 counterexample: running the enrichment+linking+ordering stages twice is
not the identity on the once-processed state — the glossary term's
`dashboards` list receives its matching asset a second time. -/
theorem C5_counterexample :
    pipeline {} [] (pipeline {} [] ([assetDAU], [termDAU])) ≠
      pipeline {} [] ([assetDAU], [termDAU]) := by
  decide

/-- C5 (amended): a second application of the stages leaves the asset list
unchanged, but re-links the glossary terms, appending each term's matching
asset names to its `dashboards` a second time (linking appends without
resetting). -/
theorem C5_second_run (md : Metadata) (ovs : List (String × Override))
    (x : List Asset × List GlossaryTerm) :
    pipeline md ovs (pipeline md ovs x) =
      ((pipeline md ovs x).1, linkTerms (pipeline md ovs x).2 (pipeline md ovs x).1) := by
  obtain ⟨as, ts⟩ := x
  have hshape : ∀ y ∈ (pipeline md ovs (as, ts)).1,
      (linkAssetOne (linkTerms ts (enrichAssets md ovs as)) ∘ enrichAsset md ovs) y = y := by
    intro y hy
    obtain ⟨b, rfl⟩ := pipeline_asset_shape md ovs (as, ts) y hy
    exact link_enrich_link md ovs ts (enrichAssets md ovs as) b
  have h1 : linkAssets (linkTerms ts (enrichAssets md ovs as))
      (enrichAssets md ovs (pipeline md ovs (as, ts)).1) = (pipeline md ovs (as, ts)).1 := by
    show ((pipeline md ovs (as, ts)).1.map (enrichAsset md ovs)).map
        (linkAssetOne (linkTerms ts (enrichAssets md ovs as))) = (pipeline md ovs (as, ts)).1
    rw [List.map_map]
    calc (pipeline md ovs (as, ts)).1.map
          (linkAssetOne (linkTerms ts (enrichAssets md ovs as)) ∘ enrichAsset md ovs)
        = (pipeline md ovs (as, ts)).1.map id := List.map_congr_left hshape
      _ = (pipeline md ovs (as, ts)).1 := List.map_id _
  have h2 : linkTerms (linkTerms ts (enrichAssets md ovs as))
      (enrichAssets md ovs (pipeline md ovs (as, ts)).1) =
      linkTerms (linkTerms ts (enrichAssets md ovs as)) (pipeline md ovs (as, ts)).1 := by
    show (linkTerms ts (enrichAssets md ovs as)).map
        (linkTermOne (enrichAssets md ovs (pipeline md ovs (as, ts)).1)) =
      (linkTerms ts (enrichAssets md ovs as)).map (linkTermOne (pipeline md ovs (as, ts)).1)
    exact List.map_congr_left (fun t ht => linkTermOne_enrichAssets md ovs _ t)
  show (sortAssets (linkAssets (linkTerms ts (enrichAssets md ovs as))
          (enrichAssets md ovs (pipeline md ovs (as, ts)).1)),
        linkTerms (linkTerms ts (enrichAssets md ovs as))
          (enrichAssets md ovs (pipeline md ovs (as, ts)).1)) = _
  rw [h1, h2]
  show (sortAssets (sortAssets (linkAssets ts (enrichAssets md ovs as))), _) = _
  rw [sortAssets_idem]
  rfl

end Catalog
